import Mathlib

/-!
Verification of the MT5 candle-publisher service (src/main.py) against its
natural-language specification.

The Python source is shallowly embedded below.  Pure helpers become Lean
functions on `List Char` / `ℤ` / `ℚ`; the process-wide mutable globals
(`mt5_ready`, `delta`) become an explicit state record threaded through the
request handlers; the MetaTrader 5 binding, the GUI and the pandas fallback
parser are opaque collaborators and are modelled as an environment record.
Machine arithmetic notes:
  * Python `int` is unbounded, so `ℤ`/`ℕ` are exact models.
  * `datetime.timedelta` stores whole microseconds and is bounded by
    ±999999999 days; every timedelta built by this program holds a whole
    number of seconds, so timedeltas are modelled as `ℤ` seconds together
    with the documented overflow bound.
  * `datetime` is bounded to years 1 to 9999, so
    `datetime.utcfromtimestamp` succeeds exactly on epoch values in
    [-62135596800, 253402300799] and raises outside that range.
  * `round` (used once, on `totalMinutes / 30`) is Python's float
    round-half-to-even; the quantities involved are exact multiples of
    microseconds over the constant divisor 1800000000, so it is modelled as
    exact round-half-to-even of an integer fraction.
  * The model covers the ASCII fragment of Python's `str.strip`,
    `str.isdigit` and `int()` (unicode digit classes do not occur in any
    input considered here).
-/

set_option maxHeartbeats 1000000

/-! ## Character and string helpers (ASCII fragment of the Python built-ins) -/

/-- ASCII whitespace stripped by Python `str.strip()`. -/
def isSpaceCh (c : Char) : Bool :=
  c = ' ' || c = '\t' || c = '\n' || c = '\x0d' || c = '\x0b' || c = '\x0c'

/-- ASCII decimal digit, the fragment of Python `str.isdigit` used here. -/
def isDigitCh (c : Char) : Bool := '0' ≤ c && c ≤ '9'

/-- Characters `+` and `-`, as in Python `lstrip("+-")` / sign tests. -/
def isSignCh (c : Char) : Bool := c = '+' || c = '-'

/-- Python `str.strip()`: drop leading and trailing whitespace. -/
def pyStrip (l : List Char) : List Char :=
  ((l.dropWhile isSpaceCh).reverse.dropWhile isSpaceCh).reverse

/-- Value of an ASCII digit character. -/
def dval (c : Char) : ℕ := c.toNat - 48

/-- Value of a big-endian ASCII digit string. -/
def digitsVal (l : List Char) : ℕ := l.foldl (fun a c => a * 10 + dval c) 0

/-- Python `str.isdigit()` on the ASCII fragment: nonempty and all digits. -/
def pyIsdigit (l : List Char) : Bool := !l.isEmpty && l.all isDigitCh

/-- Python `str.split(":")`: split on every colon, keeping empty pieces. -/
def splitOnColon : List Char → List (List Char)
  | [] => [[]]
  | c :: rest =>
    if c = ':' then [] :: splitOnColon rest
    else
      match splitOnColon rest with
      | [] => [[c]]
      | p :: ps => (c :: p) :: ps

/-- Digit grammar of Python `int()` after the optional sign: one or more
digits with single underscores allowed only between digits. -/
def pyIntDigitsOK (l : List Char) : Bool :=
  !l.isEmpty && l.all (fun c => isDigitCh c || c = '_') &&
    l.head? ≠ some '_' && l.getLast? ≠ some '_' && noDoubleUnderscore l
where
  noDoubleUnderscore : List Char → Bool
    | [] => true
    | [_] => true
    | a :: b :: rest => !(a = '_' && b = '_') && noDoubleUnderscore (b :: rest)

/-- Python `int(s)` on the ASCII fragment: optional surrounding whitespace,
optional single sign, digit group; `none` models a raised `ValueError`. -/
def pyInt (l : List Char) : Option ℤ :=
  match pyStrip l with
  | [] => none
  | c :: rest =>
    if c = '+' then
      if pyIntDigitsOK rest then some ((digitsVal (rest.filter (fun x => x ≠ '_')) : ℕ) : ℤ)
      else none
    else if c = '-' then
      if pyIntDigitsOK rest then some (-(digitsVal (rest.filter (fun x => x ≠ '_')) : ℤ)) else none
    else
      if pyIntDigitsOK (c :: rest) then
        some ((digitsVal ((c :: rest).filter (fun x => x ≠ '_')) : ℕ) : ℤ)
      else none

/-! ## timedelta model

`datetime.timedelta` normalises to (days, seconds, microseconds) and raises
`OverflowError` when the normalised days fall outside ±999999999.  All
timedeltas built by `main.py` carry whole seconds, so a timedelta is a `ℤ`
of seconds; the bound below is exactly the constructor's day bound. -/

def TD_MIN_SECS : ℤ := -999999999 * 86400
def TD_MAX_SECS : ℤ := 999999999 * 86400 + 86399

/-- Model of `timedelta(seconds=secs)`: `none` models a raised `OverflowError`. -/
def mkTimedeltaSecs (secs : ℤ) : Option ℤ :=
  if TD_MIN_SECS ≤ secs ∧ secs ≤ TD_MAX_SECS then some secs else none

/-! ## `_parse_delta_text` (src/main.py lines 102-129) -/

/-- Outcome of `_parse_delta_text`: a parsed duration in seconds, the
HTTP 400 "Invalid delta format" exception, or an uncaught Python exception
(`ValueError` from the un-guarded `int(s)` call in the minutes branch,
`OverflowError` from timedelta construction). -/
inductive DeltaResult
  | ok (seconds : ℤ)
  | invalidDelta
  | valueError
  | overflowError
  deriving DecidableEq

/-- Clock-form tail of `_parse_delta_text`: split the sign-stripped text on
colons, convert 2 or 3 parts with `int()` (a `ValueError` there is caught
and surfaced as the 400 error), build the signed timedelta. -/
def clockParts (sgv : ℤ) (body : List Char) : DeltaResult :=
  let parts := splitOnColon body
  if parts.length = 2 ∨ parts.length = 3 then
    match pyInt (parts.getD 0 []), pyInt (parts.getD 1 []),
          (if parts.length = 3 then pyInt (parts.getD 2 []) else some 0) with
    | some hh, some mm, some ss =>
      match mkTimedeltaSecs (hh * 3600 + mm * 60 + ss) with
      | some t =>
        if sgv = -1 then
          match mkTimedeltaSecs (-t) with
          | some v => DeltaResult.ok v
          | none => DeltaResult.overflowError
        else DeltaResult.ok t
      | none => DeltaResult.overflowError
    | _, _, _ => DeltaResult.invalidDelta
  else DeltaResult.invalidDelta

/-- Sign handling at the head of the clock form (`if s[0] in "+-": ...`). -/
def clockForm (s : List Char) : DeltaResult :=
  match s with
  | c :: rest =>
    if c = '-' then clockParts (-1) rest
    else if c = '+' then clockParts 1 rest
    else clockParts 1 (c :: rest)
  | [] => clockParts 1 []

/-- Embedding of `_parse_delta_text(s)` on the character list of `s`. -/
def parseDeltaTextL (s0 : List Char) : DeltaResult :=
  let s := pyStrip s0
  if s = [] ∨ s = ['0'] ∨ s = ['+', '0'] ∨ s = ['-', '0'] then DeltaResult.ok 0
  else if pyIsdigit (s.dropWhile isSignCh) = true then
    -- minutes branch; note the source does NOT guard this int() call with
    -- try/except, so a ValueError here escapes the function.
    match pyInt s with
    | some m =>
      match mkTimedeltaSecs (m * 60) with
      | some v => DeltaResult.ok v
      | none => DeltaResult.overflowError
    | none => DeltaResult.valueError
  else clockForm s

/-- Embedding of `_parse_delta_text` on a string. -/
def parse_delta_text (s : String) : DeltaResult := parseDeltaTextL s.toList

/-! ## `_ensure_delta` auto-detection arithmetic (src/main.py lines 149-161) -/

/-- Exact round-half-to-even of the fraction `x / d` (for `d > 0`), the
behaviour of Python `round` on the value; `/` and `%` on `ℤ` round toward
negative infinity for positive divisors, matching Python. -/
def roundHalfEvenDiv (x d : ℤ) : ℤ :=
  let f := x / d
  let r := x % d
  if 2 * r < d then f
  else if d < 2 * r then f + 1
  else if f % 2 = 0 then f else f + 1

/-- The auto-detect computation of `_ensure_delta`, in minutes: the
reference bar instant `t` (epoch seconds) is widened to a datetime whose
microsecond field is replaced by `(t % 1000) * 1000`, the current UTC
instant is `nowUs` microseconds, and the signed difference in minutes is
rounded half-to-even to a multiple of 30. -/
def autoDeltaMinutes (t nowUs : ℤ) : ℤ :=
  let barUs : ℤ := t * 1000000 + t % 1000 * 1000
  let diffUs : ℤ := barUs - nowUs
  -- round((diffUs / 60e6) / 30) * 30, exactly
  roundHalfEvenDiv diffUs 1800000000 * 30

/-! ## `_parse_time_any` (src/main.py lines 163-182) -/

/-- The validated fields of a Python `datetime` produced by `strptime`. -/
structure PyDateTime where
  year : ℕ
  month : ℕ
  day : ℕ
  hour : ℕ
  minute : ℕ
  second : ℕ
  deriving DecidableEq

def isLeapYear (y : ℕ) : Bool := (y % 4 = 0 && y % 100 ≠ 0) || y % 400 = 0

def daysInMonth (y m : ℕ) : ℕ :=
  if m = 2 then (if isLeapYear y then 29 else 28)
  else if m = 4 ∨ m = 6 ∨ m = 9 ∨ m = 11 then 30 else 31

/-- One or two digits, maximal munch (equivalent to the `strptime` regex
alternation for these formats, whose field separators are non-digits). -/
def take2Digits : List Char → Option (ℕ × List Char)
  | [] => none
  | c1 :: rest =>
    if isDigitCh c1 then
      match rest with
      | c2 :: rest2 => if isDigitCh c2 then some (dval c1 * 10 + dval c2, rest2) else some (dval c1, rest)
      | [] => some (dval c1, [])
    else none

/-- Exactly four digits, as `strptime`'s `%Y`. -/
def take4Digits : List Char → Option (ℕ × List Char)
  | c1 :: c2 :: c3 :: c4 :: rest =>
    if isDigitCh c1 && isDigitCh c2 && isDigitCh c3 && isDigitCh c4 then
      some (dval c1 * 1000 + dval c2 * 100 + dval c3 * 10 + dval c4, rest)
    else none
  | _ => none

def expectChar (c : Char) : List Char → Option (List Char)
  | d :: rest => if d = c then some rest else none
  | [] => none

/-- Model of `datetime.strptime` for format `%Y-%m-%d`, `sep`, `%H:%M:%S`, including the range
validation performed by the `datetime` constructor (month 1-12, day within
the month, hour ≤ 23, minute ≤ 59, second ≤ 59, year ≥ 1); `none` is the
`ValueError` that the caller catches to try the next format. -/
def strptimeYmdHms (sep : Char) (l : List Char) : Option PyDateTime := do
  let (y, l) ← take4Digits l
  let l ← expectChar '-' l
  let (mo, l) ← take2Digits l
  let l ← expectChar '-' l
  let (d, l) ← take2Digits l
  let l ← expectChar sep l
  let (h, l) ← take2Digits l
  let l ← expectChar ':' l
  let (mi, l) ← take2Digits l
  let l ← expectChar ':' l
  let (s, l) ← take2Digits l
  if l = [] ∧ 1 ≤ y ∧ 1 ≤ mo ∧ mo ≤ 12 ∧ 1 ≤ d ∧ d ≤ daysInMonth y mo ∧
      h ≤ 23 ∧ mi ≤ 59 ∧ s ≤ 59 then
    some ⟨y, mo, d, h, mi, s⟩
  else none

/-- Days from 1970-01-01 of a proleptic-Gregorian civil date (the classic
era/year-of-era computation; all intermediate quantities are nonnegative
for years ≥ 1, where every integer-division convention agrees). -/
def daysFromCivil (y m d : ℕ) : ℤ :=
  let yi : ℤ := if m ≤ 2 then (y : ℤ) - 1 else (y : ℤ)
  let era : ℤ := yi / 400
  let yoe : ℤ := yi - era * 400
  let mp : ℤ := if 2 < m then (m : ℤ) - 3 else (m : ℤ) + 9
  let doy : ℤ := (153 * mp + 2) / 5 + (d : ℤ) - 1
  let doe : ℤ := yoe * 365 + yoe / 4 - yoe / 100 + doy
  era * 146097 + doe - 719468

/-- UTC epoch seconds of a parsed datetime (the instant denoted by
`datetime.strptime(...).replace(tzinfo=pytz.utc)`). -/
def toEpoch (dt : PyDateTime) : ℤ :=
  daysFromCivil dt.year dt.month dt.day * 86400 +
    (dt.hour : ℤ) * 3600 + (dt.minute : ℤ) * 60 + (dt.second : ℤ)

/-- The request value: a JSON number (epoch seconds) or a string. -/
inductive TimeInput
  | num (n : ℤ)
  | str (s : String)

/-- Epoch seconds of `datetime.min` (0001-01-01 00:00:00). -/
def DATETIME_MIN_EPOCH : ℤ := -62135596800

/-- Epoch seconds of `datetime.max` whole seconds (9999-12-31 23:59:59). -/
def DATETIME_MAX_EPOCH : ℤ := 253402300799

/-- Embedding of `_parse_time_any(t)`, returning the UTC instant as epoch seconds.
Numeric input is `datetime.utcfromtimestamp(t)`, i.e. the epoch value
itself when it lies within the `datetime` range (years 1 to 9999); outside
that range the conversion raises, which the function does not catch.
String input tries the two `strptime` formats in order and then falls back
to `pd.to_datetime(s, utc=True)`, an external permissive parser modelled
by the oracle `pandas`.  `none` covers both failure modes — the HTTP 400
"Invalid time format" exception raised here and the conversion error that
escapes — because the only caller (`get_candles`) wraps the call in
try/except that turns every such failure into the same 400 response. -/
def parse_time_any (pandas : String → Option ℤ) : TimeInput → Option ℤ
  | TimeInput.num n =>
    if DATETIME_MIN_EPOCH ≤ n ∧ n ≤ DATETIME_MAX_EPOCH then some n else none
  | TimeInput.str s =>
    let l := pyStrip s.toList
    match strptimeYmdHms ' ' l with
    | some dt => some (toEpoch dt)
    | none =>
      match strptimeYmdHms 'T' l with
      | some dt => some (toEpoch dt)
      | none => pandas (String.mk l)

/-! ## `_to_payload` (src/main.py lines 184-198) -/

/-- The fixed output column order of `_to_payload`. -/
def PAYLOAD_COLS : List String :=
  ["adjusted_time", "open", "high", "low", "close", "tick_volume", "spread", "real_volume"]

/-- A pandas DataFrame built from the raw record array: a uniform column
list and one value row per record (cell values as exact rationals). -/
structure DFrame where
  cols : List String
  rows : List (List ℚ)
  deriving DecidableEq

/-- Cell access `df[c]` for one row: the cell under column `c` (0 backstop unused when
membership is guarded). -/
def colVal (cols : List String) (row : List ℚ) (c : String) : ℚ :=
  match cols.indexOf? c with
  | some i => row.getD i 0
  | none => 0

/-- Output cell of the selection `df[cols]` for column `c`:
the freshly computed `adjusted_time`, the source cell when the column
exists, else the constant 0 written by `df[c] = 0`. -/
def payloadElem (cols : List String) (δ : ℚ) (row : List ℚ) (c : String) : ℚ :=
  if c = "adjusted_time" then colVal cols row "time" - δ
  else if c ∈ cols then colVal cols row c
  else 0

def payloadRow (cols : List String) (δ : ℚ) (row : List ℚ) : List ℚ :=
  PAYLOAD_COLS.map (payloadElem cols δ row)

/-- The uncaught exception of `_to_payload`: `df['time']` raises `KeyError`
when the instant column is absent from a non-empty frame. -/
inductive PandasErr
  | keyError
  deriving DecidableEq

/-- Embedding of `_to_payload(df, delta_)` with `δ = delta_.total_seconds()`:
empty frame → empty list; otherwise `adjusted_time = time - δ` per row,
the seven other expected columns defaulted to 0 when missing, rows in
input order. -/
def to_payload (df : DFrame) (δ : ℚ) : Except PandasErr (List (List ℚ)) :=
  if df.rows.isEmpty then Except.ok []
  else if "time" ∈ df.cols then Except.ok (df.rows.map (payloadRow df.cols δ))
  else Except.error PandasErr.keyError

/-! ## Service state, environment and request handlers
(src/main.py lines 49-54, 56-100, 131-161, 240-280)

The process-wide mutable globals are `mt5_ready : Bool` and
`delta : Optional[timedelta]`; they form the explicit state `St`.  The GUI
widgets, the MT5 terminal binding and the two rate queries are external
collaborators collected in `Env`.  Handlers are modelled sequentially (the
interleaved semantics of the connection gate is the subject of the
`GateSys` model further below). -/

/-- The 21 timeframe codes of `TIMEFRAME_MAP`. -/
def TIMEFRAME_KEYS : List String :=
  ["M1", "M2", "M3", "M4", "M5", "M6", "M10", "M12", "M15", "M20", "M30",
   "H1", "H2", "H3", "H4", "H6", "H8", "H12", "D1", "W1", "MN1"]

/-- The HTTP failure taxonomy of the handlers, plus the uncaught Python
exceptions that escape them. -/
inductive Err
  | guiNotReady        -- 503 "GUI not ready yet"
  | notConfigured      -- 503 "MT5 credentials not set in GUI"
  | initFailed         -- 500 "MT5 initialization failed"
  | loginFailed        -- 500 "MT5 login failed"
  | invalidDelta       -- 400 "Invalid delta format..."
  | valueError         -- uncaught ValueError
  | overflowError      -- uncaught OverflowError
  | deltaUnavailable   -- 500 "Unable to read reference tick for delta"
  | invalidTimeFrame   -- 400 "Invalid time frame..."
  | invalidTimeFormat  -- 400 "Invalid time format..."
  | invalidCount       -- 400 "'count' must be > 0"
  | invalidOffset      -- 400 "'offset' must be >= 0"
  | noData             -- 404 "No data found for the given parameters"
  | keyError           -- uncaught KeyError from _to_payload
  deriving DecidableEq

/-- The mutable globals: `mt5_ready` and `delta` (in whole seconds). -/
structure St where
  mt5Ready : Bool
  delta : Option ℤ
  deriving DecidableEq

/-- Calls made to the MT5 binding, recorded in order. -/
inductive MT5Call
  | connect    -- mt5.initialize(path)
  | login      -- mt5.login(...)
  | ratesFromPos
  | ratesRange
  deriving DecidableEq

/-- External collaborators: the GUI (readiness, credential presence, delta
field text), the MT5 binding (success of initialize/login, the reference
bar for auto-detection), the wall clock, the pandas fallback parser and
the two rate queries (indexed by their query parameters). -/
structure Env where
  guiReady : Bool
  credsPresent : Bool
  initOk : Bool
  loginOk : Bool
  guiDeltaText : List Char
  refBar : Option ℤ
  nowUs : ℤ
  pandas : String → Option ℤ
  rangeRates : ℤ → ℤ → Option DFrame
  posRates : ℤ → ℤ → Option DFrame

/-- Embedding of `_ensure_mt5_ready()` (lines 76-100), sequential semantics: GUI and
credential guards, fast-path return when ready, otherwise initialize then
login; failures surface before `mt5_ready` is ever set, so no partial
success is retained. -/
def ensure_mt5_ready (env : Env) (st : St) : St × List MT5Call × Except Err Unit :=
  if ¬ env.guiReady then (st, [], Except.error Err.guiNotReady)
  else if ¬ env.credsPresent then (st, [], Except.error Err.notConfigured)
  else if st.mt5Ready then (st, [], Except.ok ())
  else if ¬ env.initOk then (st, [MT5Call.connect], Except.error Err.initFailed)
  else if ¬ env.loginOk then (st, [MT5Call.connect, MT5Call.login], Except.error Err.loginFailed)
  else ({ st with mt5Ready := true }, [MT5Call.connect, MT5Call.login], Except.ok ())

/-- Embedding of `_ensure_delta()` (lines 131-161): cached delta wins; else the GUI text
is parsed (exceptions from `_parse_delta_text` propagate); else auto-detect
from the reference bar after `_ensure_mt5_ready()`. -/
def ensure_delta (env : Env) (st : St) : St × List MT5Call × Except Err Unit :=
  if st.delta.isSome then (st, [], Except.ok ())
  else if ¬ env.guiReady then (st, [], Except.error Err.guiNotReady)
  else
    let guiText := pyStrip env.guiDeltaText
    if guiText ≠ [] then
      match parseDeltaTextL guiText with
      | DeltaResult.ok secs => ({ st with delta := some secs }, [], Except.ok ())
      | DeltaResult.invalidDelta => (st, [], Except.error Err.invalidDelta)
      | DeltaResult.valueError => (st, [], Except.error Err.valueError)
      | DeltaResult.overflowError => (st, [], Except.error Err.overflowError)
    else
      match ensure_mt5_ready env st with
      | (st1, calls, Except.error e) => (st1, calls, Except.error e)
      | (st1, calls, Except.ok _) =>
        match env.refBar with
        | none => (st1, calls ++ [MT5Call.ratesFromPos], Except.error Err.deltaUnavailable)
        | some t =>
          ({ st1 with delta := some (autoDeltaMinutes t env.nowUs * 60) },
           calls ++ [MT5Call.ratesFromPos], Except.ok ())

/-- A `/get_candles/` request body. -/
structure RangeReq where
  symbol : String
  time_frame : String
  time_from : TimeInput
  time_to : TimeInput

/-- A `/get_candles_by_offset/` request body. -/
structure OffsetReq where
  symbol : String
  time_frame : String
  offset : ℤ
  count : ℤ

/-- Embedding of `get_candles` (lines 240-261): ensure MT5, ensure delta, validate the
timeframe, parse and shift both bounds, query, normalise.  The returned
state is the value of the globals when the handler finishes, normally or
exceptionally. -/
def get_candles (env : Env) (st : St) (req : RangeReq) : St × Except Err (List (List ℚ)) :=
  match ensure_mt5_ready env st with
  | (st1, _, Except.error e) => (st1, Except.error e)
  | (st1, _, Except.ok _) =>
    match ensure_delta env st1 with
    | (st2, _, Except.error e) => (st2, Except.error e)
    | (st2, _, Except.ok _) =>
      if req.time_frame ∉ TIMEFRAME_KEYS then (st2, Except.error Err.invalidTimeFrame)
      else
        let d := st2.delta.getD 0
        match parse_time_any env.pandas req.time_from, parse_time_any env.pandas req.time_to with
        | some tf, some tt =>
          match env.rangeRates (tf + d) (tt + d) with
          | none => (st2, Except.error Err.noData)
          | some df =>
            if df.rows.isEmpty then (st2, Except.error Err.noData)
            else
              match to_payload df (d : ℚ) with
              | Except.ok p => (st2, Except.ok p)
              | Except.error _ => (st2, Except.error Err.keyError)
        | _, _ => (st2, Except.error Err.invalidTimeFormat)

/-- Embedding of `get_candles_by_offset` (lines 263-280): ensure MT5, ensure delta,
validate timeframe, then `count > 0` and `offset >= 0`, query, normalise. -/
def get_candles_by_offset (env : Env) (st : St) (req : OffsetReq) :
    St × Except Err (List (List ℚ)) :=
  match ensure_mt5_ready env st with
  | (st1, _, Except.error e) => (st1, Except.error e)
  | (st1, _, Except.ok _) =>
    match ensure_delta env st1 with
    | (st2, _, Except.error e) => (st2, Except.error e)
    | (st2, _, Except.ok _) =>
      if req.time_frame ∉ TIMEFRAME_KEYS then (st2, Except.error Err.invalidTimeFrame)
      else if req.count ≤ 0 then (st2, Except.error Err.invalidCount)
      else if req.offset < 0 then (st2, Except.error Err.invalidOffset)
      else
        let d := st2.delta.getD 0
        match env.posRates req.offset req.count with
        | none => (st2, Except.error Err.noData)
        | some df =>
          if df.rows.isEmpty then (st2, Except.error Err.noData)
          else
            match to_payload df (d : ℚ) with
            | Except.ok p => (st2, Except.ok p)
            | Except.error _ => (st2, Except.error Err.keyError)

/-! ## Interleaved semantics of `_ensure_mt5_ready` (src/main.py lines 76-100)

N request threads run the body of `_ensure_mt5_ready` concurrently against
the shared globals, in the scenario of claim C9: GUI ready, credentials
present.  Each thread's control point walks the statements of the
function: the unlocked fast check of `mt5_ready`, acquiring `mt5_lock`,
the locked re-check, `mt5.initialize`, `mt5.login`, the `mt5_ready = True`
store, and the lock release performed when the `with` block is left
(normally or by a raised exception).  Reads and writes of the shared
`mt5_ready` flag are atomic statements (CPython's global interpreter lock
guarantees at least statement-level atomicity for these). -/

/-- Control points of one thread inside `_ensure_mt5_ready`. -/
inductive TPC
  | checkFast      -- line 84: unlocked `if mt5_ready: return`
  | acquireLock    -- line 87: `with mt5_lock:`
  | checkLocked    -- line 88: locked `if mt5_ready: return`
  | doConnect      -- line 91: `if not mt5.initialize(path): raise`
  | doLogin        -- line 93: `if not mt5.login(...): raise`
  | setReady       -- line 99: `mt5_ready = True`
  | releaseLock    -- leaving the `with` block
  | finishedReady  -- returned with the gate ready
  | finishedFailed -- propagating an HTTP 500 exception
  deriving DecidableEq

/-- Shared state of the gate plus each thread's control point and the
count of calls made to the MT5 binding. -/
structure GateSys (n : ℕ) where
  ready : Bool
  lockHeld : Option (Fin n)
  pcs : Fin n → TPC
  initCalls : ℕ
  loginCalls : ℕ
  initOk : Bool
  loginOk : Bool

/-- All N threads start at the fast check, gate down, lock free. -/
def gateInit (n : ℕ) (initOk loginOk : Bool) : GateSys n :=
  { ready := false, lockHeld := none, pcs := fun _ => TPC.checkFast,
    initCalls := 0, loginCalls := 0, initOk := initOk, loginOk := loginOk }

/-- One atomic statement of one thread. -/
inductive GateStep {n : ℕ} : GateSys n → GateSys n → Prop
  | fastTrue (s : GateSys n) (i : Fin n) :
      s.pcs i = TPC.checkFast → s.ready = true →
      GateStep s { s with pcs := Function.update s.pcs i TPC.finishedReady }
  | fastFalse (s : GateSys n) (i : Fin n) :
      s.pcs i = TPC.checkFast → s.ready = false →
      GateStep s { s with pcs := Function.update s.pcs i TPC.acquireLock }
  | acquire (s : GateSys n) (i : Fin n) :
      s.pcs i = TPC.acquireLock → s.lockHeld = none →
      GateStep s { s with pcs := Function.update s.pcs i TPC.checkLocked, lockHeld := some i }
  | lockedTrue (s : GateSys n) (i : Fin n) :
      s.pcs i = TPC.checkLocked → s.ready = true →
      GateStep s { s with pcs := Function.update s.pcs i TPC.releaseLock }
  | lockedFalse (s : GateSys n) (i : Fin n) :
      s.pcs i = TPC.checkLocked → s.ready = false →
      GateStep s { s with pcs := Function.update s.pcs i TPC.doConnect }
  | connectSucc (s : GateSys n) (i : Fin n) :
      s.pcs i = TPC.doConnect → s.initOk = true →
      GateStep s { s with pcs := Function.update s.pcs i TPC.doLogin,
                          initCalls := s.initCalls + 1 }
  | connectFail (s : GateSys n) (i : Fin n) :
      s.pcs i = TPC.doConnect → s.initOk = false →
      GateStep s { s with pcs := Function.update s.pcs i TPC.finishedFailed,
                          initCalls := s.initCalls + 1, lockHeld := none }
  | loginSucc (s : GateSys n) (i : Fin n) :
      s.pcs i = TPC.doLogin → s.loginOk = true →
      GateStep s { s with pcs := Function.update s.pcs i TPC.setReady,
                          loginCalls := s.loginCalls + 1 }
  | loginFail (s : GateSys n) (i : Fin n) :
      s.pcs i = TPC.doLogin → s.loginOk = false →
      GateStep s { s with pcs := Function.update s.pcs i TPC.finishedFailed,
                          loginCalls := s.loginCalls + 1, lockHeld := none }
  | storeReady (s : GateSys n) (i : Fin n) :
      s.pcs i = TPC.setReady →
      GateStep s { s with pcs := Function.update s.pcs i TPC.releaseLock, ready := true }
  | release (s : GateSys n) (i : Fin n) :
      s.pcs i = TPC.releaseLock → s.lockHeld = some i →
      GateStep s { s with pcs := Function.update s.pcs i TPC.finishedReady, lockHeld := none }

/-- Control points that hold `mt5_lock`. -/
def InCS (pc : TPC) : Prop :=
  pc = TPC.checkLocked ∨ pc = TPC.doConnect ∨ pc = TPC.doLogin ∨
    pc = TPC.setReady ∨ pc = TPC.releaseLock

/-- Control points strictly inside the initialize/login/store sequence. -/
def MidCS (pc : TPC) : Prop :=
  pc = TPC.doConnect ∨ pc = TPC.doLogin ∨ pc = TPC.setReady
/-- The inductive invariant of the gate under a succeeding environment:
lock discipline, monotone readiness, and call counting. -/
structure GateInv {n : ℕ} (s : GateSys n) : Prop where
  initOkTrue : s.initOk = true
  loginOkTrue : s.loginOk = true
  csLock : ∀ i, InCS (s.pcs i) → s.lockHeld = some i
  doneReady : ∀ i, s.pcs i = TPC.finishedReady → s.ready = true
  relReady : ∀ i, s.pcs i = TPC.releaseLock → s.ready = true
  midNotReady : ∀ i, MidCS (s.pcs i) → s.ready = false
  readyCounts : s.ready = true → s.initCalls = 1 ∧ s.loginCalls = 1
  atConnect : ∀ i, s.pcs i = TPC.doConnect → s.initCalls = 0 ∧ s.loginCalls = 0
  atLogin : ∀ i, s.pcs i = TPC.doLogin → s.initCalls = 1 ∧ s.loginCalls = 0
  atStore : ∀ i, s.pcs i = TPC.setReady → s.initCalls = 1 ∧ s.loginCalls = 1
  idleCounts : s.ready = false → (∀ i, ¬ MidCS (s.pcs i)) →
    s.initCalls = 0 ∧ s.loginCalls = 0

theorem gateInv_lockUnique {n : ℕ} {s : GateSys n} (inv : GateInv s) {i j : Fin n}
    (hi : InCS (s.pcs i)) (hj : InCS (s.pcs j)) : i = j := by
  have h1 := inv.csLock i hi
  have h2 := inv.csLock j hj
  rw [h1] at h2
  exact Option.some_injective _ h2

theorem gateInv_init (n : ℕ) : GateInv (gateInit n true true) := by
  refine ⟨rfl, rfl, ?_, ?_, ?_, ?_, ?_, ?_, ?_, ?_, ?_⟩ <;>
    intros <;> simp_all [gateInit, InCS, MidCS]

theorem gateInv_step {n : ℕ} {s s' : GateSys n}
    (inv : GateInv s) (hstep : GateStep s s') : GateInv s' := by
  cases hstep with
  | fastTrue i hpc hrd =>
    refine ⟨inv.initOkTrue, inv.loginOkTrue, ?_, ?_, ?_, ?_, inv.readyCounts, ?_, ?_, ?_, ?_⟩
    · intro j h
      rcases eq_or_ne j i with rfl | hne
      · simp only [Function.update_same] at h; simp [InCS] at h
      · simp only [Function.update_noteq hne] at h; exact inv.csLock j h
    · intro j h; exact hrd
    · intro j h
      rcases eq_or_ne j i with rfl | hne
      · simp only [Function.update_same] at h; exact absurd h (by simp)
      · simp only [Function.update_noteq hne] at h; exact inv.relReady j h
    · intro j h
      rcases eq_or_ne j i with rfl | hne
      · simp only [Function.update_same] at h; simp [MidCS] at h
      · simp only [Function.update_noteq hne] at h
        exact absurd hrd (by simp [inv.midNotReady j h])
    · intro j h
      rcases eq_or_ne j i with rfl | hne
      · simp only [Function.update_same] at h; exact absurd h (by simp)
      · simp only [Function.update_noteq hne] at h; exact inv.atConnect j h
    · intro j h
      rcases eq_or_ne j i with rfl | hne
      · simp only [Function.update_same] at h; exact absurd h (by simp)
      · simp only [Function.update_noteq hne] at h; exact inv.atLogin j h
    · intro j h
      rcases eq_or_ne j i with rfl | hne
      · simp only [Function.update_same] at h; exact absurd h (by simp)
      · simp only [Function.update_noteq hne] at h; exact inv.atStore j h
    · intro hrd' _
      have hx : s.ready = false := hrd'
      exact absurd hrd (by simp [hx])
  | fastFalse i hpc hrd =>
    refine ⟨inv.initOkTrue, inv.loginOkTrue, ?_, ?_, ?_, ?_, inv.readyCounts, ?_, ?_, ?_, ?_⟩
    · intro j h
      rcases eq_or_ne j i with rfl | hne
      · simp only [Function.update_same] at h; simp [InCS] at h
      · simp only [Function.update_noteq hne] at h; exact inv.csLock j h
    · intro j h
      rcases eq_or_ne j i with rfl | hne
      · simp only [Function.update_same] at h; exact absurd h (by simp)
      · simp only [Function.update_noteq hne] at h; exact inv.doneReady j h
    · intro j h
      rcases eq_or_ne j i with rfl | hne
      · simp only [Function.update_same] at h; exact absurd h (by simp)
      · simp only [Function.update_noteq hne] at h; exact inv.relReady j h
    · intro j h
      rcases eq_or_ne j i with rfl | hne
      · simp only [Function.update_same] at h; simp [MidCS] at h
      · simp only [Function.update_noteq hne] at h; exact inv.midNotReady j h
    · intro j h
      rcases eq_or_ne j i with rfl | hne
      · simp only [Function.update_same] at h; exact absurd h (by simp)
      · simp only [Function.update_noteq hne] at h; exact inv.atConnect j h
    · intro j h
      rcases eq_or_ne j i with rfl | hne
      · simp only [Function.update_same] at h; exact absurd h (by simp)
      · simp only [Function.update_noteq hne] at h; exact inv.atLogin j h
    · intro j h
      rcases eq_or_ne j i with rfl | hne
      · simp only [Function.update_same] at h; exact absurd h (by simp)
      · simp only [Function.update_noteq hne] at h; exact inv.atStore j h
    · intro hrd' hnm
      refine inv.idleCounts hrd' ?_
      intro k
      have hk := hnm k
      rcases eq_or_ne k i with rfl | hne
      · rw [hpc]; simp [MidCS]
      · simp only [Function.update_noteq hne] at hk; exact hk
  | acquire i hpc hlk =>
    refine ⟨inv.initOkTrue, inv.loginOkTrue, ?_, ?_, ?_, ?_, inv.readyCounts, ?_, ?_, ?_, ?_⟩
    · intro j h
      rcases eq_or_ne j i with rfl | hne
      · rfl
      · simp only [Function.update_noteq hne] at h
        have := inv.csLock j h
        rw [hlk] at this
        exact absurd this (by simp)
    · intro j h
      rcases eq_or_ne j i with rfl | hne
      · simp only [Function.update_same] at h; exact absurd h (by simp)
      · simp only [Function.update_noteq hne] at h; exact inv.doneReady j h
    · intro j h
      rcases eq_or_ne j i with rfl | hne
      · simp only [Function.update_same] at h; exact absurd h (by simp)
      · simp only [Function.update_noteq hne] at h; exact inv.relReady j h
    · intro j h
      rcases eq_or_ne j i with rfl | hne
      · simp only [Function.update_same] at h; simp [MidCS] at h
      · simp only [Function.update_noteq hne] at h; exact inv.midNotReady j h
    · intro j h
      rcases eq_or_ne j i with rfl | hne
      · simp only [Function.update_same] at h; exact absurd h (by simp)
      · simp only [Function.update_noteq hne] at h; exact inv.atConnect j h
    · intro j h
      rcases eq_or_ne j i with rfl | hne
      · simp only [Function.update_same] at h; exact absurd h (by simp)
      · simp only [Function.update_noteq hne] at h; exact inv.atLogin j h
    · intro j h
      rcases eq_or_ne j i with rfl | hne
      · simp only [Function.update_same] at h; exact absurd h (by simp)
      · simp only [Function.update_noteq hne] at h; exact inv.atStore j h
    · intro hrd' hnm
      refine inv.idleCounts hrd' ?_
      intro k
      have hk := hnm k
      rcases eq_or_ne k i with rfl | hne
      · rw [hpc]; simp [MidCS]
      · simp only [Function.update_noteq hne] at hk; exact hk
  | lockedTrue i hpc hrd =>
    refine ⟨inv.initOkTrue, inv.loginOkTrue, ?_, ?_, ?_, ?_, inv.readyCounts, ?_, ?_, ?_, ?_⟩
    · intro j h
      rcases eq_or_ne j i with rfl | hne
      · exact inv.csLock j (by rw [hpc]; simp [InCS])
      · simp only [Function.update_noteq hne] at h; exact inv.csLock j h
    · intro j h
      rcases eq_or_ne j i with rfl | hne
      · simp only [Function.update_same] at h; exact absurd h (by simp)
      · simp only [Function.update_noteq hne] at h; exact inv.doneReady j h
    · intro j h; exact hrd
    · intro j h
      rcases eq_or_ne j i with rfl | hne
      · simp only [Function.update_same] at h; simp [MidCS] at h
      · simp only [Function.update_noteq hne] at h
        exact absurd hrd (by simp [inv.midNotReady j h])
    · intro j h
      rcases eq_or_ne j i with rfl | hne
      · simp only [Function.update_same] at h; exact absurd h (by simp)
      · simp only [Function.update_noteq hne] at h; exact inv.atConnect j h
    · intro j h
      rcases eq_or_ne j i with rfl | hne
      · simp only [Function.update_same] at h; exact absurd h (by simp)
      · simp only [Function.update_noteq hne] at h; exact inv.atLogin j h
    · intro j h
      rcases eq_or_ne j i with rfl | hne
      · simp only [Function.update_same] at h; exact absurd h (by simp)
      · simp only [Function.update_noteq hne] at h; exact inv.atStore j h
    · intro hrd' _
      have hx : s.ready = false := hrd'
      exact absurd hrd (by simp [hx])
  | lockedFalse i hpc hrd =>
    have hnomid : ∀ k, ¬ MidCS (s.pcs k) := by
      intro k hk
      have hik : i = k := @gateInv_lockUnique n s inv i k (by rw [hpc]; simp [InCS])
        (by rcases hk with h | h | h <;> rw [h] <;> simp [InCS])
      rw [← hik, hpc] at hk
      simp [MidCS] at hk
    have hcounts := inv.idleCounts hrd hnomid
    refine ⟨inv.initOkTrue, inv.loginOkTrue, ?_, ?_, ?_, ?_, ?_, ?_, ?_, ?_, ?_⟩
    · intro j h
      rcases eq_or_ne j i with rfl | hne
      · exact inv.csLock j (by rw [hpc]; simp [InCS])
      · simp only [Function.update_noteq hne] at h; exact inv.csLock j h
    · intro j h
      rcases eq_or_ne j i with rfl | hne
      · simp only [Function.update_same] at h; exact absurd h (by simp)
      · simp only [Function.update_noteq hne] at h; exact inv.doneReady j h
    · intro j h
      rcases eq_or_ne j i with rfl | hne
      · simp only [Function.update_same] at h; exact absurd h (by simp)
      · simp only [Function.update_noteq hne] at h; exact inv.relReady j h
    · intro j h; exact hrd
    · intro hrd'
      have hx : s.ready = true := hrd'
      exact absurd hx (by simp [hrd])
    · intro j h; exact hcounts
    · intro j h
      rcases eq_or_ne j i with rfl | hne
      · simp only [Function.update_same] at h; exact absurd h (by simp)
      · simp only [Function.update_noteq hne] at h
        exact absurd (show MidCS (s.pcs j) by rw [h]; simp [MidCS]) (hnomid j)
    · intro j h
      rcases eq_or_ne j i with rfl | hne
      · simp only [Function.update_same] at h; exact absurd h (by simp)
      · simp only [Function.update_noteq hne] at h
        exact absurd (show MidCS (s.pcs j) by rw [h]; simp [MidCS]) (hnomid j)
    · intro hrd' hnm
      have := hnm i
      simp only [Function.update_same] at this
      simp [MidCS] at this
  | connectSucc i hpc hok =>
    have hlock := inv.csLock i (by rw [hpc]; simp [InCS])
    have hrd : s.ready = false := inv.midNotReady i (by rw [hpc]; simp [MidCS])
    have hcnt := inv.atConnect i hpc
    have honly : ∀ j, j ≠ i → ¬ InCS (s.pcs j) := by
      intro j hne hj
      exact hne (@gateInv_lockUnique n s inv j i hj (by rw [hpc]; simp [InCS]))
    refine ⟨inv.initOkTrue, inv.loginOkTrue, ?_, ?_, ?_, ?_, ?_, ?_, ?_, ?_, ?_⟩
    · intro j h
      rcases eq_or_ne j i with rfl | hne
      · exact hlock
      · simp only [Function.update_noteq hne] at h; exact inv.csLock j h
    · intro j h
      rcases eq_or_ne j i with rfl | hne
      · simp only [Function.update_same] at h; exact absurd h (by simp)
      · simp only [Function.update_noteq hne] at h; exact inv.doneReady j h
    · intro j h
      rcases eq_or_ne j i with rfl | hne
      · simp only [Function.update_same] at h; exact absurd h (by simp)
      · simp only [Function.update_noteq hne] at h; exact inv.relReady j h
    · intro j h
      rcases eq_or_ne j i with rfl | hne
      · exact hrd
      · simp only [Function.update_noteq hne] at h; exact inv.midNotReady j h
    · intro hrd'
      have hx : s.ready = true := hrd'
      exact absurd hx (by simp [hrd])
    · intro j h
      rcases eq_or_ne j i with rfl | hne
      · simp only [Function.update_same] at h; exact absurd h (by simp)
      · simp only [Function.update_noteq hne] at h
        exact absurd (show InCS (s.pcs j) by rw [h]; simp [InCS]) (honly j hne)
    · intro j h
      rcases eq_or_ne j i with rfl | hne
      · exact ⟨by simp [hcnt.1], hcnt.2⟩
      · simp only [Function.update_noteq hne] at h
        exact absurd (show InCS (s.pcs j) by rw [h]; simp [InCS]) (honly j hne)
    · intro j h
      rcases eq_or_ne j i with rfl | hne
      · simp only [Function.update_same] at h; exact absurd h (by simp)
      · simp only [Function.update_noteq hne] at h
        exact absurd (show InCS (s.pcs j) by rw [h]; simp [InCS]) (honly j hne)
    · intro hrd' hnm
      have := hnm i
      simp only [Function.update_same] at this
      simp [MidCS] at this
  | connectFail i hpc hok =>
    have := inv.initOkTrue
    rw [hok] at this
    exact absurd this (by simp)
  | loginSucc i hpc hok =>
    have hlock := inv.csLock i (by rw [hpc]; simp [InCS])
    have hrd : s.ready = false := inv.midNotReady i (by rw [hpc]; simp [MidCS])
    have hcnt := inv.atLogin i hpc
    have honly : ∀ j, j ≠ i → ¬ InCS (s.pcs j) := by
      intro j hne hj
      exact hne (@gateInv_lockUnique n s inv j i hj (by rw [hpc]; simp [InCS]))
    refine ⟨inv.initOkTrue, inv.loginOkTrue, ?_, ?_, ?_, ?_, ?_, ?_, ?_, ?_, ?_⟩
    · intro j h
      rcases eq_or_ne j i with rfl | hne
      · exact hlock
      · simp only [Function.update_noteq hne] at h; exact inv.csLock j h
    · intro j h
      rcases eq_or_ne j i with rfl | hne
      · simp only [Function.update_same] at h; exact absurd h (by simp)
      · simp only [Function.update_noteq hne] at h; exact inv.doneReady j h
    · intro j h
      rcases eq_or_ne j i with rfl | hne
      · simp only [Function.update_same] at h; exact absurd h (by simp)
      · simp only [Function.update_noteq hne] at h; exact inv.relReady j h
    · intro j h
      rcases eq_or_ne j i with rfl | hne
      · exact hrd
      · simp only [Function.update_noteq hne] at h; exact inv.midNotReady j h
    · intro hrd'
      have hx : s.ready = true := hrd'
      exact absurd hx (by simp [hrd])
    · intro j h
      rcases eq_or_ne j i with rfl | hne
      · simp only [Function.update_same] at h; exact absurd h (by simp)
      · simp only [Function.update_noteq hne] at h
        exact absurd (show InCS (s.pcs j) by rw [h]; simp [InCS]) (honly j hne)
    · intro j h
      rcases eq_or_ne j i with rfl | hne
      · simp only [Function.update_same] at h; exact absurd h (by simp)
      · simp only [Function.update_noteq hne] at h
        exact absurd (show InCS (s.pcs j) by rw [h]; simp [InCS]) (honly j hne)
    · intro j h
      rcases eq_or_ne j i with rfl | hne
      · exact ⟨hcnt.1, by simp [hcnt.2]⟩
      · simp only [Function.update_noteq hne] at h
        exact absurd (show InCS (s.pcs j) by rw [h]; simp [InCS]) (honly j hne)
    · intro hrd' hnm
      have := hnm i
      simp only [Function.update_same] at this
      simp [MidCS] at this
  | loginFail i hpc hok =>
    have := inv.loginOkTrue
    rw [hok] at this
    exact absurd this (by simp)
  | storeReady i hpc =>
    have hlock := inv.csLock i (by rw [hpc]; simp [InCS])
    have hcnt := inv.atStore i hpc
    have honly : ∀ j, j ≠ i → ¬ InCS (s.pcs j) := by
      intro j hne hj
      exact hne (@gateInv_lockUnique n s inv j i hj (by rw [hpc]; simp [InCS]))
    refine ⟨inv.initOkTrue, inv.loginOkTrue, ?_, ?_, ?_, ?_, ?_, ?_, ?_, ?_, ?_⟩
    · intro j h
      rcases eq_or_ne j i with rfl | hne
      · exact hlock
      · simp only [Function.update_noteq hne] at h; exact inv.csLock j h
    · intro j h; rfl
    · intro j h; rfl
    · intro j h
      rcases eq_or_ne j i with rfl | hne
      · simp only [Function.update_same] at h; simp [MidCS] at h
      · simp only [Function.update_noteq hne] at h
        exact absurd (show InCS (s.pcs j) by
          rcases h with h | h | h <;> rw [h] <;> simp [InCS]) (honly j hne)
    · intro _; exact hcnt
    · intro j h
      rcases eq_or_ne j i with rfl | hne
      · simp only [Function.update_same] at h; exact absurd h (by simp)
      · simp only [Function.update_noteq hne] at h
        exact absurd (show InCS (s.pcs j) by rw [h]; simp [InCS]) (honly j hne)
    · intro j h
      rcases eq_or_ne j i with rfl | hne
      · simp only [Function.update_same] at h; exact absurd h (by simp)
      · simp only [Function.update_noteq hne] at h
        exact absurd (show InCS (s.pcs j) by rw [h]; simp [InCS]) (honly j hne)
    · intro j h
      rcases eq_or_ne j i with rfl | hne
      · simp only [Function.update_same] at h; exact absurd h (by simp)
      · simp only [Function.update_noteq hne] at h
        exact absurd (show InCS (s.pcs j) by rw [h]; simp [InCS]) (honly j hne)
    · intro hrd' _; exact absurd hrd' (by simp)
  | release i hpc hlk =>
    have hrd : s.ready = true := inv.relReady i hpc
    refine ⟨inv.initOkTrue, inv.loginOkTrue, ?_, ?_, ?_, ?_, inv.readyCounts, ?_, ?_, ?_, ?_⟩
    · intro j h
      rcases eq_or_ne j i with rfl | hne
      · simp only [Function.update_same] at h; simp [InCS] at h
      · simp only [Function.update_noteq hne] at h
        have := inv.csLock j h
        rw [hlk] at this
        exact absurd (Option.some_injective _ this) (Ne.symm hne)
    · intro j h; exact hrd
    · intro j h
      rcases eq_or_ne j i with rfl | hne
      · simp only [Function.update_same] at h; exact absurd h (by simp)
      · simp only [Function.update_noteq hne] at h; exact inv.relReady j h
    · intro j h
      rcases eq_or_ne j i with rfl | hne
      · simp only [Function.update_same] at h; simp [MidCS] at h
      · simp only [Function.update_noteq hne] at h
        exact absurd hrd (by simp [inv.midNotReady j h])
    · intro j h
      rcases eq_or_ne j i with rfl | hne
      · simp only [Function.update_same] at h; exact absurd h (by simp)
      · simp only [Function.update_noteq hne] at h; exact inv.atConnect j h
    · intro j h
      rcases eq_or_ne j i with rfl | hne
      · simp only [Function.update_same] at h; exact absurd h (by simp)
      · simp only [Function.update_noteq hne] at h; exact inv.atLogin j h
    · intro j h
      rcases eq_or_ne j i with rfl | hne
      · simp only [Function.update_same] at h; exact absurd h (by simp)
      · simp only [Function.update_noteq hne] at h; exact inv.atStore j h
    · intro hrd' _
      have hx : s.ready = false := hrd'
      exact absurd hrd (by simp [hx])

theorem gateInv_reach {n : ℕ} {s : GateSys n}
    (h : Relation.ReflTransGen GateStep (gateInit n true true) s) : GateInv s := by
  induction h with
  | refl => exact gateInv_init n
  | tail hsteps hstep ih => exact gateInv_step ih hstep

/-! ## Claims -/

/-- C1 counterexample: with the reference bar at epoch 1704067200 and the
current UTC instant 47 minutes later, the auto-detected offset is -60
minutes, not the -30 minutes stated by the specification. -/
theorem C1_cex_autodetect_not_minus_30 :
    autoDeltaMinutes 1704067200 ((1704067200 + 2820) * 1000000) = -60 ∧
    (-60 : ℤ) ≠ -30 := by
  constructor
  · decide
  · decide

/-- C1 (amended): for every reference bar instant `t`, auto-detection
against a current UTC instant 47 minutes (2820 s) later caches an offset of
-60 minutes: round-half-even rounding of -47 minutes to the nearest
30-minute multiple yields -60, the source's `round(totalMinutes/30)*30`. -/
theorem C1_autodetect_rounds_minus_47_to_minus_60 (t : ℤ) :
    autoDeltaMinutes t ((t + 2820) * 1000000) = -60 := by
  have hx : t * 1000000 + t % 1000 * 1000 - (t + 2820) * 1000000 =
      t % 1000 * 1000 - 2820000000 := by ring
  simp only [autoDeltaMinutes, roundHalfEvenDiv, hx]
  have h0 : 0 ≤ t % 1000 := Int.emod_nonneg t (by norm_num)
  have h1 : t % 1000 < 1000 := Int.emod_lt_of_pos t (by norm_num)
  split_ifs <;> omega

/-- C2 counterexample: the string bound "2024-01-01 00:00:00" resolves to
epoch 1704067200 while the numeric bound 1704153600 resolves to itself;
the two instants differ (1704153600 is 2024-01-02 00:00:00 UTC). -/
theorem C2_cex_bounds_differ :
    parse_time_any (fun _ => none) (TimeInput.str "2024-01-01 00:00:00") = some 1704067200 ∧
    parse_time_any (fun _ => none) (TimeInput.num 1704153600) = some 1704153600 ∧
    (1704067200 : ℤ) ≠ 1704153600 := by
  refine ⟨by decide, by decide, by decide⟩

/-- C2 (amended): the time parser maps "2024-01-01 00:00:00" to the UTC
instant 1704067200 regardless of the pandas fallback oracle (the listed
string format is anchored to UTC), and every numeric input within the
`datetime` range (epoch -62135596800 to 253402300799, years 1 to 9999) is
interpreted directly as UTC epoch seconds, while numeric input outside
that range makes the conversion raise (surfaced by the handler as the
invalid-time-format error); hence the string and the numeric value
1704067200 (not 1704153600) resolve to equal bounds. -/
theorem C2_string_and_numeric_agree :
    (∀ pandas, parse_time_any pandas (TimeInput.str "2024-01-01 00:00:00") = some 1704067200) ∧
    (∀ pandas (n : ℤ), DATETIME_MIN_EPOCH ≤ n → n ≤ DATETIME_MAX_EPOCH →
      parse_time_any pandas (TimeInput.num n) = some n) ∧
    (∀ pandas (n : ℤ), n < DATETIME_MIN_EPOCH ∨ DATETIME_MAX_EPOCH < n →
      parse_time_any pandas (TimeInput.num n) = none) := by
  refine ⟨fun pandas => rfl, ?_, ?_⟩
  · intro pandas n h1 h2
    unfold parse_time_any
    exact if_pos ⟨h1, h2⟩
  · intro pandas n hout
    unfold parse_time_any
    refine if_neg ?_
    rintro ⟨h1, h2⟩
    rcases hout with h | h
    · exact absurd h1 (by omega)
    · exact absurd h2 (by omega)

/-- C2 witness: the numeric value 1704067200 lies within the datetime
range and resolves to itself, equal to the instant of the string bound. -/
theorem C2_witness_equal_bounds :
    parse_time_any (fun _ => none) (TimeInput.str "2024-01-01 00:00:00") = some 1704067200 ∧
    parse_time_any (fun _ => none) (TimeInput.num 1704067200) = some 1704067200 := by
  exact ⟨C2_string_and_numeric_agree.1 (fun _ => none),
    C2_string_and_numeric_agree.2.1 (fun _ => none) 1704067200 (by decide) (by decide)⟩

/-- C5 (code bug): the input "+-5" matches none of the three grammar forms,
yet the parser raises an uncaught ValueError instead of the 400
InvalidDeltaFormat error: `"+-5".lstrip("+-")` is `"5"`, so the digit guard
passes and the unguarded `int("+-5")` raises. -/
theorem C5_plus_minus_5_uncaught_valueerror :
    parse_delta_text "+-5" = DeltaResult.valueError ∧
    DeltaResult.valueError ≠ DeltaResult.invalidDelta := by
  constructor
  · decide
  · decide

/-- C10 counterexample: a clock-form input whose hours component is large
enough exceeds the timedelta day bound, so parsing raises an uncaught
OverflowError rather than succeeding: the claim's "arbitrarily large"
hours component is false. -/
theorem C10_cex_huge_hours_overflow :
    parse_delta_text "100000000000:00" = DeltaResult.overflowError := by
  decide

/-! ## Character-list lemmas used to evaluate the clock form symbolically -/

theorem isSpaceCh_false_of_digit {c : Char} (h : isDigitCh c = true) : isSpaceCh c = false := by
  cases hb : isSpaceCh c
  · rfl
  · exfalso
    unfold isSpaceCh at hb
    simp only [Bool.or_eq_true, decide_eq_true_eq] at hb
    rcases hb with ((((rfl | rfl) | rfl) | rfl) | rfl) | rfl <;> exact absurd h (by decide)

theorem digit_ne_colon {c : Char} (h : isDigitCh c = true) : c ≠ ':' := by
  intro hx; rw [hx] at h; exact absurd h (by decide)

theorem digit_ne_plus {c : Char} (h : isDigitCh c = true) : c ≠ '+' := by
  intro hx; rw [hx] at h; exact absurd h (by decide)

theorem digit_ne_minus {c : Char} (h : isDigitCh c = true) : c ≠ '-' := by
  intro hx; rw [hx] at h; exact absurd h (by decide)

theorem digit_ne_underscore {c : Char} (h : isDigitCh c = true) : c ≠ '_' := by
  intro hx; rw [hx] at h; exact absurd h (by decide)

theorem dropWhile_eq_self_of_all {p : Char → Bool} {l : List Char}
    (h : ∀ c ∈ l, p c = false) : l.dropWhile p = l := by
  cases l with
  | nil => rfl
  | cons a t =>
    rw [List.dropWhile_cons]
    simp [h a (List.mem_cons_self a t)]

theorem pyStrip_eq_self {l : List Char} (h : ∀ c ∈ l, isSpaceCh c = false) : pyStrip l = l := by
  unfold pyStrip
  rw [dropWhile_eq_self_of_all h]
  rw [dropWhile_eq_self_of_all (fun c hc => h c (List.mem_reverse.mp hc))]
  exact List.reverse_reverse l

theorem mem_dropWhile_of_not {p : Char → Bool} {c : Char} {l : List Char}
    (hc : c ∈ l) (hp : p c = false) : c ∈ l.dropWhile p := by
  induction l with
  | nil => exact absurd hc (by simp)
  | cons a t ih =>
    rw [List.dropWhile_cons]
    by_cases ha : p a = true
    · rw [if_pos ha]
      rcases List.mem_cons.mp hc with rfl | hct
      · rw [hp] at ha; exact absurd ha (by simp)
      · exact ih hct
    · rw [if_neg ha]; exact hc

theorem splitOnColon_no_colon {l : List Char} (h : ':' ∉ l) : splitOnColon l = [l] := by
  induction l with
  | nil => rfl
  | cons a t ih =>
    have ha : a ≠ ':' := fun hx => h (by rw [hx]; exact List.mem_cons_self ':' t)
    have ht := ih (fun hx => h (List.mem_cons_of_mem a hx))
    simp only [splitOnColon, if_neg ha, ht]

theorem splitOnColon_append {h t : List Char} (hh : ':' ∉ h) :
    splitOnColon (h ++ ':' :: t) = h :: splitOnColon t := by
  induction h with
  | nil => simp [splitOnColon]
  | cons a r ih =>
    have ha : a ≠ ':' := fun hx => hh (by rw [hx]; exact List.mem_cons_self ':' r)
    have hr := ih (fun hx => hh (List.mem_cons_of_mem a hx))
    have hr' : splitOnColon (List.append r (':' :: t)) = r :: splitOnColon t := hr
    simp only [List.cons_append, splitOnColon, if_neg ha]
    rw [hr']

theorem noDoubleUnderscore_of_digits : ∀ {l : List Char},
    (∀ c ∈ l, isDigitCh c = true) → pyIntDigitsOK.noDoubleUnderscore l = true
  | [], _ => rfl
  | [_], _ => rfl
  | a :: b :: rest, h => by
    have ha : a ≠ '_' := digit_ne_underscore (h a (by simp))
    have htail : ∀ c ∈ b :: rest, isDigitCh c = true := fun c hc => h c (by simp [hc])
    have ih := noDoubleUnderscore_of_digits htail
    simp only [pyIntDigitsOK.noDoubleUnderscore, ih, Bool.and_true]
    simp [ha]

theorem pyIntDigitsOK_of_digits {l : List Char} (hne : l ≠ [])
    (hd : ∀ c ∈ l, isDigitCh c = true) : pyIntDigitsOK l = true := by
  have h1 : l.isEmpty = false := by
    cases l with
    | nil => exact absurd rfl hne
    | cons a t => rfl
  have h2 : l.all (fun c => isDigitCh c || c = '_') = true :=
    List.all_eq_true.mpr (fun c hc => by simp [hd c hc])
  have h3 : l.head? ≠ some '_' := by
    cases l with
    | nil => simp
    | cons a t =>
      intro hx
      exact digit_ne_underscore (hd a (List.mem_cons_self a t)) (Option.some.inj hx)
  have h4 : l.getLast? ≠ some '_' := by
    intro hx
    obtain ⟨hl, he⟩ := List.mem_getLast?_eq_getLast hx
    exact digit_ne_underscore (hd _ (he ▸ List.getLast_mem hl)) rfl
  have h5 := noDoubleUnderscore_of_digits hd
  unfold pyIntDigitsOK
  simp [h1, h2, h3, h4, h5]

theorem filter_underscore_of_digits {l : List Char} (hd : ∀ c ∈ l, isDigitCh c = true) :
    l.filter (fun x => x ≠ '_') = l := by
  refine List.filter_eq_self.mpr (fun a ha => ?_)
  simp [digit_ne_underscore (hd a ha)]

/-- Python `int()` evaluates a pure digit string to its decimal value. -/
theorem pyInt_digits {l : List Char} (hne : l ≠ []) (hd : ∀ c ∈ l, isDigitCh c = true) :
    pyInt l = some ((digitsVal l : ℕ) : ℤ) := by
  obtain ⟨c, t, rfl⟩ := List.exists_cons_of_ne_nil hne
  have hs : pyStrip (c :: t) = c :: t :=
    pyStrip_eq_self (fun x hx => isSpaceCh_false_of_digit (hd x hx))
  have hcd := hd c (List.mem_cons_self c t)
  unfold pyInt
  rw [hs]
  simp only [if_neg (digit_ne_plus hcd), if_neg (digit_ne_minus hcd),
    if_pos (pyIntDigitsOK_of_digits (by simp) hd), filter_underscore_of_digits hd]

/-! ## Symbolic evaluation of the clock form -/

theorem mkTimedeltaSecs_pos_ok {v : ℤ} (h0 : 0 ≤ v) (hb : v ≤ 86399999913600) :
    mkTimedeltaSecs v = some v := by
  simp only [mkTimedeltaSecs, TD_MIN_SECS, TD_MAX_SECS]
  exact if_pos ⟨by omega, by omega⟩

theorem mkTimedeltaSecs_neg_ok {v : ℤ} (h0 : 0 ≤ v) (hb : v ≤ 86399999913600) :
    mkTimedeltaSecs (-v) = some (-v) := by
  simp only [mkTimedeltaSecs, TD_MIN_SECS, TD_MAX_SECS]
  exact if_pos ⟨by omega, by omega⟩

theorem clockParts_two_eval (sgv : ℤ) {hstr mstr : List Char}
    (h1 : hstr ≠ []) (h2 : mstr ≠ [])
    (d1 : ∀ c ∈ hstr, isDigitCh c = true) (d2 : ∀ c ∈ mstr, isDigitCh c = true)
    (hb : (digitsVal hstr : ℤ) * 3600 + (digitsVal mstr : ℤ) * 60 ≤ 86399999913600) :
    clockParts sgv (hstr ++ ':' :: mstr) =
      (if sgv = -1 then
        DeltaResult.ok (-((digitsVal hstr : ℤ) * 3600 + (digitsVal mstr : ℤ) * 60))
       else DeltaResult.ok ((digitsVal hstr : ℤ) * 3600 + (digitsVal mstr : ℤ) * 60)) := by
  have hcolh : ':' ∉ hstr := fun hx => digit_ne_colon (d1 ':' hx) rfl
  have hcolm : ':' ∉ mstr := fun hx => digit_ne_colon (d2 ':' hx) rfl
  have hsplit : splitOnColon (hstr ++ ':' :: mstr) = [hstr, mstr] := by
    rw [splitOnColon_append hcolh, splitOnColon_no_colon hcolm]
  have hh0 : (0 : ℤ) ≤ (digitsVal hstr : ℤ) := Int.natCast_nonneg _
  have hm0 : (0 : ℤ) ≤ (digitsVal mstr : ℤ) := Int.natCast_nonneg _
  have hv0 : (0 : ℤ) ≤ (digitsVal hstr : ℤ) * 3600 + (digitsVal mstr : ℤ) * 60 := by omega
  have g0 : ([hstr, mstr] : List (List Char)).getD 0 [] = hstr := rfl
  have g1 : ([hstr, mstr] : List (List Char)).getD 1 [] = mstr := rfl
  simp only [clockParts, hsplit]
  rw [if_pos (by norm_num : ([hstr, mstr] : List (List Char)).length = 2 ∨
    ([hstr, mstr] : List (List Char)).length = 3)]
  rw [if_neg (by norm_num : ¬ ([hstr, mstr] : List (List Char)).length = 3)]
  rw [g0, g1, pyInt_digits h1 d1, pyInt_digits h2 d2]
  dsimp only
  simp only [add_zero]
  rw [mkTimedeltaSecs_pos_ok hv0 hb]
  dsimp only
  split_ifs with hs
  · rw [mkTimedeltaSecs_neg_ok hv0 hb]
  · rfl

theorem clockParts_three_eval (sgv : ℤ) {hstr mstr sstr : List Char}
    (h1 : hstr ≠ []) (h2 : mstr ≠ []) (h3 : sstr ≠ [])
    (d1 : ∀ c ∈ hstr, isDigitCh c = true) (d2 : ∀ c ∈ mstr, isDigitCh c = true)
    (d3 : ∀ c ∈ sstr, isDigitCh c = true)
    (hb : (digitsVal hstr : ℤ) * 3600 + (digitsVal mstr : ℤ) * 60 + (digitsVal sstr : ℤ) ≤
      86399999913600) :
    clockParts sgv (hstr ++ ':' :: (mstr ++ ':' :: sstr)) =
      (if sgv = -1 then
        DeltaResult.ok (-((digitsVal hstr : ℤ) * 3600 + (digitsVal mstr : ℤ) * 60 +
          (digitsVal sstr : ℤ)))
       else DeltaResult.ok ((digitsVal hstr : ℤ) * 3600 + (digitsVal mstr : ℤ) * 60 +
          (digitsVal sstr : ℤ))) := by
  have hcolh : ':' ∉ hstr := fun hx => digit_ne_colon (d1 ':' hx) rfl
  have hcolm : ':' ∉ mstr := fun hx => digit_ne_colon (d2 ':' hx) rfl
  have hcols : ':' ∉ sstr := fun hx => digit_ne_colon (d3 ':' hx) rfl
  have hsplit : splitOnColon (hstr ++ ':' :: (mstr ++ ':' :: sstr)) = [hstr, mstr, sstr] := by
    rw [splitOnColon_append hcolh, splitOnColon_append hcolm, splitOnColon_no_colon hcols]
  have hh0 : (0 : ℤ) ≤ (digitsVal hstr : ℤ) := Int.natCast_nonneg _
  have hm0 : (0 : ℤ) ≤ (digitsVal mstr : ℤ) := Int.natCast_nonneg _
  have hs0 : (0 : ℤ) ≤ (digitsVal sstr : ℤ) := Int.natCast_nonneg _
  have hv0 : (0 : ℤ) ≤ (digitsVal hstr : ℤ) * 3600 + (digitsVal mstr : ℤ) * 60 +
      (digitsVal sstr : ℤ) := by omega
  have g0 : ([hstr, mstr, sstr] : List (List Char)).getD 0 [] = hstr := rfl
  have g1 : ([hstr, mstr, sstr] : List (List Char)).getD 1 [] = mstr := rfl
  have g2 : ([hstr, mstr, sstr] : List (List Char)).getD 2 [] = sstr := rfl
  simp only [clockParts, hsplit]
  rw [if_pos (by norm_num : ([hstr, mstr, sstr] : List (List Char)).length = 2 ∨
    ([hstr, mstr, sstr] : List (List Char)).length = 3)]
  rw [if_pos (by norm_num : ([hstr, mstr, sstr] : List (List Char)).length = 3)]
  rw [g0, g1, g2, pyInt_digits h1 d1, pyInt_digits h2 d2, pyInt_digits h3 d3]
  dsimp only
  rw [mkTimedeltaSecs_pos_ok hv0 hb]
  dsimp only
  split_ifs with hs
  · rw [mkTimedeltaSecs_neg_ok hv0 hb]
  · rfl

theorem parseDelta_enters_clock {l : List Char}
    (hns : ∀ c ∈ l, isSpaceCh c = false) (hcol : ':' ∈ l) :
    parseDeltaTextL l = clockForm l := by
  have hzero : ¬ (l = [] ∨ l = ['0'] ∨ l = ['+', '0'] ∨ l = ['-', '0']) := by
    rintro (rfl | rfl | rfl | rfl) <;> simp at hcol
  have hdig : ¬ pyIsdigit (l.dropWhile isSignCh) = true := by
    have hmem : ':' ∈ l.dropWhile isSignCh := mem_dropWhile_of_not hcol (by decide)
    intro htrue
    unfold pyIsdigit at htrue
    rw [Bool.and_eq_true] at htrue
    exact absurd (List.all_eq_true.mp htrue.2 ':' hmem) (by decide)
  simp only [parseDeltaTextL, pyStrip_eq_self hns, if_neg hzero, if_neg hdig]

theorem clockForm_unsigned {c : Char} {rest : List Char} (hc : isDigitCh c = true) :
    clockForm (c :: rest) = clockParts 1 (c :: rest) := by
  unfold clockForm
  dsimp only
  rw [if_neg (digit_ne_minus hc), if_neg (digit_ne_plus hc)]

theorem clockForm_plus (rest : List Char) : clockForm ('+' :: rest) = clockParts 1 rest := by
  unfold clockForm
  dsimp only
  rw [if_neg (by decide : ¬ ('+' : Char) = '-'), if_pos rfl]

theorem clockForm_minus (rest : List Char) : clockForm ('-' :: rest) = clockParts (-1) rest := by
  unfold clockForm
  dsimp only
  rw [if_pos rfl]

theorem no_space_of_clock_chars {l : List Char}
    (h : ∀ c ∈ l, isDigitCh c = true ∨ c = ':' ∨ c = '+' ∨ c = '-') :
    ∀ c ∈ l, isSpaceCh c = false := by
  intro c hc
  rcases h c hc with hd | rfl | rfl | rfl
  · exact isSpaceCh_false_of_digit hd
  · decide
  · decide
  · decide

theorem clockJoin_chars {a b : List Char}
    (da : ∀ c ∈ a, isDigitCh c = true)
    (db : ∀ c ∈ b, isDigitCh c = true ∨ c = ':' ∨ c = '+' ∨ c = '-') :
    ∀ c ∈ a ++ ':' :: b, isDigitCh c = true ∨ c = ':' ∨ c = '+' ∨ c = '-' := by
  intro c hc
  rcases List.mem_append.mp hc with h | h
  · exact Or.inl (da c h)
  · rcases List.mem_cons.mp h with rfl | h
    · exact Or.inr (Or.inl rfl)
    · exact db c h

theorem parseDelta_unsigned_clock {hstr rest2 : List Char} (h1 : hstr ≠ [])
    (hd : ∀ c ∈ hstr, isDigitCh c = true)
    (hns : ∀ c ∈ hstr ++ rest2, isSpaceCh c = false)
    (hcol : ':' ∈ hstr ++ rest2) :
    parseDeltaTextL (hstr ++ rest2) = clockParts 1 (hstr ++ rest2) := by
  obtain ⟨c, t, rfl⟩ := List.exists_cons_of_ne_nil h1
  rw [parseDelta_enters_clock hns hcol, List.cons_append]
  exact clockForm_unsigned (hd c (List.mem_cons_self c t))

theorem parseDelta_plus_clock {body : List Char}
    (hns : ∀ c ∈ '+' :: body, isSpaceCh c = false) (hcol : ':' ∈ body) :
    parseDeltaTextL ('+' :: body) = clockParts 1 body := by
  rw [parseDelta_enters_clock hns (List.mem_cons_of_mem _ hcol), clockForm_plus]

theorem parseDelta_minus_clock {body : List Char}
    (hns : ∀ c ∈ '-' :: body, isSpaceCh c = false) (hcol : ':' ∈ body) :
    parseDeltaTextL ('-' :: body) = clockParts (-1) body := by
  rw [parseDelta_enters_clock hns (List.mem_cons_of_mem _ hcol), clockForm_minus]

/-- C10 (amended): the clock-form branch performs no range check on the
components: for every optionally signed input of two or three
colon-separated nonempty digit sequences whose total duration stays within
the timedelta day bound (999999999 days), parsing succeeds and returns
sign times (H hours + M minutes + S seconds) — minutes or seconds far
beyond 59, such as "99:99", are accepted as written.  (Totals beyond the
timedelta bound raise OverflowError, per the counterexample.) -/
theorem C10_clock_form_no_range_check (hstr mstr sstr : List Char)
    (h1 : hstr ≠ []) (h2 : mstr ≠ []) (h3 : sstr ≠ [])
    (d1 : ∀ c ∈ hstr, isDigitCh c = true) (d2 : ∀ c ∈ mstr, isDigitCh c = true)
    (d3 : ∀ c ∈ sstr, isDigitCh c = true)
    (hb : (digitsVal hstr : ℤ) * 3600 + (digitsVal mstr : ℤ) * 60 + (digitsVal sstr : ℤ) ≤
      86399999913600) :
    parseDeltaTextL (hstr ++ ':' :: mstr) =
      DeltaResult.ok ((digitsVal hstr : ℤ) * 3600 + (digitsVal mstr : ℤ) * 60) ∧
    parseDeltaTextL ('+' :: (hstr ++ ':' :: mstr)) =
      DeltaResult.ok ((digitsVal hstr : ℤ) * 3600 + (digitsVal mstr : ℤ) * 60) ∧
    parseDeltaTextL ('-' :: (hstr ++ ':' :: mstr)) =
      DeltaResult.ok (-((digitsVal hstr : ℤ) * 3600 + (digitsVal mstr : ℤ) * 60)) ∧
    parseDeltaTextL (hstr ++ ':' :: (mstr ++ ':' :: sstr)) =
      DeltaResult.ok ((digitsVal hstr : ℤ) * 3600 + (digitsVal mstr : ℤ) * 60 +
        (digitsVal sstr : ℤ)) ∧
    parseDeltaTextL ('+' :: (hstr ++ ':' :: (mstr ++ ':' :: sstr))) =
      DeltaResult.ok ((digitsVal hstr : ℤ) * 3600 + (digitsVal mstr : ℤ) * 60 +
        (digitsVal sstr : ℤ)) ∧
    parseDeltaTextL ('-' :: (hstr ++ ':' :: (mstr ++ ':' :: sstr))) =
      DeltaResult.ok (-((digitsVal hstr : ℤ) * 3600 + (digitsVal mstr : ℤ) * 60 +
        (digitsVal sstr : ℤ))) := by
  have hsnn : (0 : ℤ) ≤ (digitsVal sstr : ℤ) := Int.natCast_nonneg _
  have hb2 : (digitsVal hstr : ℤ) * 3600 + (digitsVal mstr : ℤ) * 60 ≤ 86399999913600 := by
    omega
  have ch2 : ∀ c ∈ hstr ++ ':' :: mstr,
      isDigitCh c = true ∨ c = ':' ∨ c = '+' ∨ c = '-' :=
    clockJoin_chars d1 (fun c h => Or.inl (d2 c h))
  have ch3 : ∀ c ∈ hstr ++ ':' :: (mstr ++ ':' :: sstr),
      isDigitCh c = true ∨ c = ':' ∨ c = '+' ∨ c = '-' :=
    clockJoin_chars d1 (clockJoin_chars d2 (fun c h => Or.inl (d3 c h)))
  have hns2 := no_space_of_clock_chars ch2
  have hns3 := no_space_of_clock_chars ch3
  have hns2p : ∀ c ∈ '+' :: (hstr ++ ':' :: mstr), isSpaceCh c = false := by
    intro c hc
    rcases List.mem_cons.mp hc with rfl | hc
    · decide
    · exact hns2 c hc
  have hns2m : ∀ c ∈ '-' :: (hstr ++ ':' :: mstr), isSpaceCh c = false := by
    intro c hc
    rcases List.mem_cons.mp hc with rfl | hc
    · decide
    · exact hns2 c hc
  have hns3p : ∀ c ∈ '+' :: (hstr ++ ':' :: (mstr ++ ':' :: sstr)), isSpaceCh c = false := by
    intro c hc
    rcases List.mem_cons.mp hc with rfl | hc
    · decide
    · exact hns3 c hc
  have hns3m : ∀ c ∈ '-' :: (hstr ++ ':' :: (mstr ++ ':' :: sstr)), isSpaceCh c = false := by
    intro c hc
    rcases List.mem_cons.mp hc with rfl | hc
    · decide
    · exact hns3 c hc
  have hcol2 : ':' ∈ hstr ++ ':' :: mstr :=
    List.mem_append_right hstr (List.mem_cons_self ':' mstr)
  have hcol3 : ':' ∈ hstr ++ ':' :: (mstr ++ ':' :: sstr) :=
    List.mem_append_right hstr (List.mem_cons_self ':' _)
  have e2 := clockParts_two_eval 1 h1 h2 d1 d2 hb2
  rw [if_neg (by decide : ¬ (1 : ℤ) = -1)] at e2
  have e2m := clockParts_two_eval (-1) h1 h2 d1 d2 hb2
  rw [if_pos (rfl : (-1 : ℤ) = -1)] at e2m
  have e3 := clockParts_three_eval 1 h1 h2 h3 d1 d2 d3 hb
  rw [if_neg (by decide : ¬ (1 : ℤ) = -1)] at e3
  have e3m := clockParts_three_eval (-1) h1 h2 h3 d1 d2 d3 hb
  rw [if_pos (rfl : (-1 : ℤ) = -1)] at e3m
  refine ⟨?_, ?_, ?_, ?_, ?_, ?_⟩
  · exact (parseDelta_unsigned_clock h1 d1 hns2 hcol2).trans e2
  · exact (parseDelta_plus_clock hns2p hcol2).trans e2
  · exact (parseDelta_minus_clock hns2m hcol2).trans e2m
  · exact (parseDelta_unsigned_clock h1 d1 hns3 hcol3).trans e3
  · exact (parseDelta_plus_clock hns3p hcol3).trans e3
  · exact (parseDelta_minus_clock hns3m hcol3).trans e3m

/-- C10 witness: "99:99" is accepted as 99 hours 99 minutes = 362340 s. -/
theorem C10_witness_99_99 : parse_delta_text "99:99" = DeltaResult.ok 362340 := by
  have h := (C10_clock_form_no_range_check ['9', '9'] ['9', '9'] ['0']
    (by decide) (by decide) (by decide) (by decide) (by decide) (by decide) (by decide)).1
  exact h

/-! ## Normalizer claims -/

/-- C4 counterexample: a non-empty record set missing the raw instant
field 'time' makes the normalizer fail with KeyError instead of defaulting
the field to zero. -/
theorem C4_cex_missing_time_raises :
    to_payload ⟨["open"], [[1]]⟩ 3 = Except.error PandasErr.keyError := rfl

/-- C4 (amended): when the raw instant field 'time' is present, the
normalizer is total and every one of the seven other expected fields that
is missing from the records yields the constant zero at its column
position in every output row; a non-empty record set missing 'time' fails
with KeyError instead. -/
theorem C4_missing_fields_default_zero :
    (∀ (df : DFrame) (δ : ℚ) (c : String), "time" ∈ df.cols → c ∈ PAYLOAD_COLS →
      c ≠ "adjusted_time" → c ∉ df.cols →
      to_payload df δ = Except.ok (df.rows.map (payloadRow df.cols δ)) ∧
      ∀ row ∈ df.rows, (payloadRow df.cols δ row)[PAYLOAD_COLS.indexOf c]? = some 0) ∧
    (∀ (df : DFrame) (δ : ℚ), df.rows ≠ [] → "time" ∉ df.cols →
      to_payload df δ = Except.error PandasErr.keyError) := by
  constructor
  · intro df δ c htime hcol hadj hmiss
    constructor
    · unfold to_payload
      by_cases hr : df.rows.isEmpty
      · rw [if_pos hr]
        rw [List.isEmpty_iff.mp hr]
        rfl
      · rw [if_neg hr, if_pos htime]
    · intro row _
      unfold payloadRow payloadElem
      rw [List.getElem?_map, List.getElem?_indexOf hcol, Option.map_some']
      rw [if_neg hadj, if_neg hmiss]
  · intro df δ hne hmiss
    unfold to_payload
    rw [if_neg (by simpa using hne), if_neg hmiss]

/-- C4 witness: with columns ["time"] and one record, the missing column
"open" (position 1) is zero in the output row, and normalize succeeds. -/
theorem C4_witness_missing_open_zero :
    to_payload ⟨["time"], [[(5 : ℚ)]]⟩ 0 =
      Except.ok ([[(5 : ℚ)]].map (payloadRow ["time"] 0)) ∧
    (payloadRow ["time"] 0 [(5 : ℚ)])[PAYLOAD_COLS.indexOf "open"]? = some 0 := by
  have h := C4_missing_fields_default_zero.1 ⟨["time"], [[(5 : ℚ)]]⟩ 0 "open"
    (by simp) (by simp [PAYLOAD_COLS]) (by simp) (by simp)
  exact ⟨h.1, h.2 [(5 : ℚ)] (by simp)⟩

/-- C7: for every record set and offset on which the normalizer succeeds,
the first column of each output row is exactly the row's raw instant minus
the offset in seconds, rows aligned positionally with the input. -/
theorem C7_adjusted_time_exact (df : DFrame) (δ : ℚ) (out : List (List ℚ))
    (h : to_payload df δ = Except.ok out) :
    out.map List.head? = df.rows.map (fun row => some (colVal df.cols row "time" - δ)) := by
  unfold to_payload at h
  by_cases hr : df.rows.isEmpty
  · rw [if_pos hr] at h
    obtain rfl : ([] : List (List ℚ)) = out := Except.ok.inj h
    rw [List.isEmpty_iff.mp hr]
    rfl
  · rw [if_neg hr] at h
    by_cases ht : "time" ∈ df.cols
    · rw [if_pos ht] at h
      obtain rfl : df.rows.map (payloadRow df.cols δ) = out := Except.ok.inj h
      rw [List.map_map]
      rfl
    · rw [if_neg ht] at h
      exact absurd h (by simp)

/-- C7 witness: one record with instant 7 and offset 0. -/
theorem C7_witness_single_row :
    ([[(7 : ℚ) - 0, 0, 0, 0, 0, 0, 0, 0]]).map List.head? =
      ([[(7 : ℚ)]]).map (fun row => some (colVal ["time"] row "time" - 0)) := by
  exact C7_adjusted_time_exact ⟨["time"], [[(7 : ℚ)]]⟩ 0
    [[(7 : ℚ) - 0, 0, 0, 0, 0, 0, 0, 0]] rfl

/-- C8 counterexample: a non-empty record list without the raw instant
column produces no output at all (KeyError), so the output does not have
the same number of rows as the input. -/
theorem C8_cex_no_output_for_timeless_rows :
    to_payload ⟨["open"], [[5]]⟩ 0 = Except.error PandasErr.keyError := rfl

/-- C8 (amended): the normalizer maps the empty record list to the empty
output for every offset, and whenever the raw instant column is present it
succeeds with exactly one output row per input record, positionally (row
order preserved); non-empty inputs without the instant column error
instead. -/
theorem C8_shape_preserved :
    (∀ (δ : ℚ) (cols : List String), to_payload ⟨cols, []⟩ δ = Except.ok []) ∧
    (∀ (df : DFrame) (δ : ℚ), "time" ∈ df.cols →
      to_payload df δ = Except.ok (df.rows.map (payloadRow df.cols δ)) ∧
      (df.rows.map (payloadRow df.cols δ)).length = df.rows.length) := by
  constructor
  · intro δ cols
    rfl
  · intro df δ ht
    constructor
    · unfold to_payload
      by_cases hr : df.rows.isEmpty
      · rw [if_pos hr]
        rw [List.isEmpty_iff.mp hr]
        rfl
      · rw [if_neg hr, if_pos ht]
    · exact List.length_map _ _

/-- C8 witness: two records, offset 0 — two output rows in input order. -/
theorem C8_witness_two_rows :
    to_payload ⟨["time", "open"], [[1, 2], [3, 4]]⟩ 0 =
      Except.ok ([[(1 : ℚ), 2], [3, 4]].map (payloadRow ["time", "open"] 0)) ∧
    (([[(1 : ℚ), 2], [3, 4]].map (payloadRow ["time", "open"] 0)).length =
      ([[(1 : ℚ), 2], [3, 4]] : List (List ℚ)).length) := by
  exact C8_shape_preserved.2 ⟨["time", "open"], [[1, 2], [3, 4]]⟩ 0 (by simp)

/-! ## Handler-level claims -/

/-- An environment in which the GUI is ready with credentials present, the
terminal initialises and logs in successfully, the GUI delta field holds
"210", and the data source returns nothing. -/
def envC3 : Env :=
  { guiReady := true, credsPresent := true, initOk := true, loginOk := true,
    guiDeltaText := ['2', '1', '0'], refBar := none, nowUs := 0,
    pandas := fun _ => none, rangeRates := fun _ _ => none, posRates := fun _ _ => none }

/-- C3 counterexample: starting Uninitialized with an unresolved offset, a
request whose timeframe "X9" is invalid still flips the readiness flag and
caches the offset before failing, because both ensure steps run before
validation; the state after the failed request differs from the state
before it. -/
theorem C3_cex_invalid_timeframe_mutates_state :
    (get_candles_by_offset envC3 ⟨false, none⟩ ⟨"X", "X9", 0, 1⟩).2 =
      Except.error Err.invalidTimeFrame ∧
    (get_candles_by_offset envC3 ⟨false, none⟩ ⟨"X", "X9", 0, 1⟩).1 ≠ ⟨false, none⟩ := by
  constructor
  · rfl
  · decide

theorem ensure_mt5_ready_fst_of_ready {env : Env} {st : St} (h : st.mt5Ready = true) :
    (ensure_mt5_ready env st).1 = st := by
  unfold ensure_mt5_ready
  split_ifs <;> simp_all

theorem ensure_mt5_ready_ready_result {env : Env} {st : St} (h : st.mt5Ready = true)
    (hg : env.guiReady = true) (hc : env.credsPresent = true) :
    ensure_mt5_ready env st = (st, [], Except.ok ()) := by
  unfold ensure_mt5_ready
  simp [h, hg, hc]

theorem ensure_delta_resolved {env : Env} {st : St} {d : ℤ} (h : st.delta = some d) :
    ensure_delta env st = (st, [], Except.ok ()) := by
  unfold ensure_delta
  simp [h]

theorem get_candles_by_offset_fst_ready {env : Env} {st : St} {req : OffsetReq} {d : ℤ}
    (h1 : st.mt5Ready = true) (h2 : st.delta = some d) :
    (get_candles_by_offset env st req).1 = st := by
  unfold get_candles_by_offset
  by_cases hg : env.guiReady = true
  · by_cases hc : env.credsPresent = true
    · rw [ensure_mt5_ready_ready_result h1 hg hc]
      dsimp only
      rw [ensure_delta_resolved h2]
      dsimp only
      repeat' split
      all_goals rfl
    · have e1 : ensure_mt5_ready env st = (st, [], Except.error Err.notConfigured) := by
        unfold ensure_mt5_ready
        simp [hg, hc]
      rw [e1]
  · have e1 : ensure_mt5_ready env st = (st, [], Except.error Err.guiNotReady) := by
      unfold ensure_mt5_ready
      simp [hg]
    rw [e1]

theorem get_candles_fst_ready {env : Env} {st : St} {req : RangeReq} {d : ℤ}
    (h1 : st.mt5Ready = true) (h2 : st.delta = some d) :
    (get_candles env st req).1 = st := by
  unfold get_candles
  by_cases hg : env.guiReady = true
  · by_cases hc : env.credsPresent = true
    · rw [ensure_mt5_ready_ready_result h1 hg hc]
      dsimp only
      rw [ensure_delta_resolved h2]
      dsimp only
      repeat' split
      all_goals rfl
    · have e1 : ensure_mt5_ready env st = (st, [], Except.error Err.notConfigured) := by
        unfold ensure_mt5_ready
        simp [hg, hc]
      rw [e1]
  · have e1 : ensure_mt5_ready env st = (st, [], Except.error Err.guiNotReady) := by
      unfold ensure_mt5_ready
      simp [hg]
    rw [e1]

/-- C3 (amended): a request that fails with InvalidTimeFrame, InvalidCount
or InvalidOffset leaves the readiness flag and the cached offset unchanged
whenever the starting state is Ready with a resolved offset; from other
starting states the ensure steps, which run before validation, may set the
flag and cache the offset before the failure (see the counterexample). -/
theorem C3_caller_errors_preserve_ready_state :
    (∀ (env : Env) (st : St) (req : OffsetReq) (d : ℤ),
      st.mt5Ready = true → st.delta = some d →
      ((get_candles_by_offset env st req).2 = Except.error Err.invalidTimeFrame ∨
        (get_candles_by_offset env st req).2 = Except.error Err.invalidCount ∨
        (get_candles_by_offset env st req).2 = Except.error Err.invalidOffset) →
      (get_candles_by_offset env st req).1 = st) ∧
    (∀ (env : Env) (st : St) (req : RangeReq) (d : ℤ),
      st.mt5Ready = true → st.delta = some d →
      (get_candles env st req).2 = Except.error Err.invalidTimeFrame →
      (get_candles env st req).1 = st) := by
  constructor
  · intro env st req d h1 h2 _
    exact get_candles_by_offset_fst_ready h1 h2
  · intro env st req d h1 h2 _
    exact get_candles_fst_ready h1 h2

/-- C3 witness: a Ready state with resolved offset and an invalid
timeframe "X9": the request fails with InvalidTimeFrame and the state is
exactly unchanged. -/
theorem C3_witness_ready_state_unchanged :
    (get_candles_by_offset envC3 ⟨true, some 0⟩ ⟨"X", "X9", 0, 1⟩).1 = ⟨true, some 0⟩ := by
  exact C3_caller_errors_preserve_ready_state.1 envC3 ⟨true, some 0⟩ ⟨"X", "X9", 0, 1⟩ 0
    rfl rfl (Or.inl rfl)

/-- C6: whenever the GUI and credentials are in place, the gate is down,
and either initialize or login fails, the call fails with the
corresponding 500 error (initialize failure distinguishable from login
failure), the state is completely unchanged (Uninitialized, no partial
success retained), and a subsequent call under a succeeding environment
re-runs both initialize and login from scratch and reaches Ready. -/
theorem C6_gate_failure_retries_from_scratch (env : Env) (st : St)
    (hg : env.guiReady = true) (hc : env.credsPresent = true)
    (hr : st.mt5Ready = false) (hf : env.initOk = false ∨ env.loginOk = false) :
    ((ensure_mt5_ready env st).2.2 = Except.error Err.initFailed ∨
      (ensure_mt5_ready env st).2.2 = Except.error Err.loginFailed) ∧
    (env.initOk = false → (ensure_mt5_ready env st).2.2 = Except.error Err.initFailed ∧
      (ensure_mt5_ready env st).2.1 = [MT5Call.connect]) ∧
    (env.initOk = true → (ensure_mt5_ready env st).2.2 = Except.error Err.loginFailed ∧
      (ensure_mt5_ready env st).2.1 = [MT5Call.connect, MT5Call.login]) ∧
    (ensure_mt5_ready env st).1 = st ∧
    (∀ env2 : Env, env2.guiReady = true → env2.credsPresent = true →
      env2.initOk = true → env2.loginOk = true →
      (ensure_mt5_ready env2 (ensure_mt5_ready env st).1).2.1 =
        [MT5Call.connect, MT5Call.login] ∧
      (ensure_mt5_ready env2 (ensure_mt5_ready env st).1).1.mt5Ready = true) := by
  by_cases hi : env.initOk = true
  · have hl : env.loginOk = false := by
      rcases hf with hf | hf
      · exact absurd hi (by simp [hf])
      · exact hf
    have e1 : ensure_mt5_ready env st =
        (st, [MT5Call.connect, MT5Call.login], Except.error Err.loginFailed) := by
      unfold ensure_mt5_ready
      simp [hg, hc, hr, hi, hl]
    rw [e1]
    refine ⟨Or.inr rfl, ?_, fun _ => ⟨rfl, rfl⟩, rfl, ?_⟩
    · intro hif
      exact absurd hi (by simp [hif])
    · intro env2 hg2 hc2 hi2 hl2
      have e2 : ensure_mt5_ready env2 st =
          ({ st with mt5Ready := true }, [MT5Call.connect, MT5Call.login], Except.ok ()) := by
        unfold ensure_mt5_ready
        simp [hg2, hc2, hr, hi2, hl2]
      rw [e2]
      exact ⟨rfl, rfl⟩
  · have hi' : env.initOk = false := by simpa using hi
    have e1 : ensure_mt5_ready env st =
        (st, [MT5Call.connect], Except.error Err.initFailed) := by
      unfold ensure_mt5_ready
      simp [hg, hc, hr, hi']
    rw [e1]
    refine ⟨Or.inl rfl, fun _ => ⟨rfl, rfl⟩, ?_, rfl, ?_⟩
    · intro hit
      exact absurd hit hi
    · intro env2 hg2 hc2 hi2 hl2
      have e2 : ensure_mt5_ready env2 st =
          ({ st with mt5Ready := true }, [MT5Call.connect, MT5Call.login], Except.ok ()) := by
        unfold ensure_mt5_ready
        simp [hg2, hc2, hr, hi2, hl2]
      rw [e2]
      exact ⟨rfl, rfl⟩

/-- An environment where initialize fails (login would succeed). -/
def envC6 : Env :=
  { guiReady := true, credsPresent := true, initOk := false, loginOk := true,
    guiDeltaText := [], refBar := none, nowUs := 0,
    pandas := fun _ => none, rangeRates := fun _ _ => none, posRates := fun _ _ => none }

/-- C6 witness: failing initialize surfaces the initialize-failure error
and leaves the state unchanged and Uninitialized. -/
theorem C6_witness_init_failure :
    (ensure_mt5_ready envC6 ⟨false, none⟩).2.2 = Except.error Err.initFailed ∧
    (ensure_mt5_ready envC6 ⟨false, none⟩).1 = ⟨false, none⟩ := by
  have h := C6_gate_failure_retries_from_scratch envC6 ⟨false, none⟩ rfl rfl rfl (Or.inl rfl)
  exact ⟨(h.2.1 rfl).1, h.2.2.2.1⟩

/-- C9: from the all-Uninitialized initial state with N ≥ 1 concurrent
callers and a succeeding initialize/login environment, every interleaved
execution in which all callers have returned ready has made exactly one
initialize call and exactly one login call, and the gate is Ready, which
every caller observed on its return path. -/
theorem C9_concurrent_gate_exactly_once {n : ℕ} (hn : 0 < n) (s : GateSys n)
    (hreach : Relation.ReflTransGen GateStep (gateInit n true true) s)
    (hdone : ∀ i, s.pcs i = TPC.finishedReady) :
    s.initCalls = 1 ∧ s.loginCalls = 1 ∧ s.ready = true := by
  have inv := gateInv_reach hreach
  have hready : s.ready = true := inv.doneReady ⟨0, hn⟩ (hdone ⟨0, hn⟩)
  exact ⟨(inv.readyCounts hready).1, (inv.readyCounts hready).2, hready⟩

theorem update_fin1 (f : Fin 1 → TPC) (i : Fin 1) (v : TPC) :
    Function.update f i v = fun _ => v := by
  funext j
  have hj : j = i := Subsingleton.elim j i
  rw [hj, Function.update_same]

/-! A concrete single-thread schedule reaching the all-done state. -/

def gw1 : GateSys 1 :=
  { ready := false, lockHeld := none, pcs := fun _ => TPC.acquireLock,
    initCalls := 0, loginCalls := 0, initOk := true, loginOk := true }

def gw2 : GateSys 1 :=
  { ready := false, lockHeld := some 0, pcs := fun _ => TPC.checkLocked,
    initCalls := 0, loginCalls := 0, initOk := true, loginOk := true }

def gw3 : GateSys 1 :=
  { ready := false, lockHeld := some 0, pcs := fun _ => TPC.doConnect,
    initCalls := 0, loginCalls := 0, initOk := true, loginOk := true }

def gw4 : GateSys 1 :=
  { ready := false, lockHeld := some 0, pcs := fun _ => TPC.doLogin,
    initCalls := 1, loginCalls := 0, initOk := true, loginOk := true }

def gw5 : GateSys 1 :=
  { ready := false, lockHeld := some 0, pcs := fun _ => TPC.setReady,
    initCalls := 1, loginCalls := 1, initOk := true, loginOk := true }

def gw6 : GateSys 1 :=
  { ready := true, lockHeld := some 0, pcs := fun _ => TPC.releaseLock,
    initCalls := 1, loginCalls := 1, initOk := true, loginOk := true }

def gw7 : GateSys 1 :=
  { ready := true, lockHeld := none, pcs := fun _ => TPC.finishedReady,
    initCalls := 1, loginCalls := 1, initOk := true, loginOk := true }

theorem gw_chain : Relation.ReflTransGen GateStep (gateInit 1 true true) gw7 := by
  have h01 : GateStep (gateInit 1 true true) gw1 := by
    have h := GateStep.fastFalse (gateInit 1 true true) 0 rfl rfl
    rwa [update_fin1] at h
  have h12 : GateStep gw1 gw2 := by
    have h := GateStep.acquire gw1 0 rfl rfl
    rwa [update_fin1] at h
  have h23 : GateStep gw2 gw3 := by
    have h := GateStep.lockedFalse gw2 0 rfl rfl
    rwa [update_fin1] at h
  have h34 : GateStep gw3 gw4 := by
    have h := GateStep.connectSucc gw3 0 rfl rfl
    rwa [update_fin1] at h
  have h45 : GateStep gw4 gw5 := by
    have h := GateStep.loginSucc gw4 0 rfl rfl
    rwa [update_fin1] at h
  have h56 : GateStep gw5 gw6 := by
    have h := GateStep.storeReady gw5 0 rfl
    rwa [update_fin1] at h
  have h67 : GateStep gw6 gw7 := by
    have h := GateStep.release gw6 0 rfl rfl
    rwa [update_fin1] at h
  exact Relation.ReflTransGen.head h01 (Relation.ReflTransGen.head h12
    (Relation.ReflTransGen.head h23 (Relation.ReflTransGen.head h34
      (Relation.ReflTransGen.head h45 (Relation.ReflTransGen.head h56
        (Relation.ReflTransGen.single h67))))))

/-- C9 witness: the concrete schedule above ends all-done with exactly one
initialize call, one login call, and the gate Ready. -/
theorem C9_witness_schedule :
    gw7.initCalls = 1 ∧ gw7.loginCalls = 1 ∧ gw7.ready = true := by
  exact C9_concurrent_gate_exactly_once (by norm_num) gw7 gw_chain (fun i => rfl)
